import Mathlib

/-!
Shallow embedding of the SignalR hub-protocol client core
(crate signalr_client) together with proofs about it.

Each Rust function is translated into an executable Lean definition that
mirrors the source control flow.  Rust panics are made explicit through the
PanicOr wrapper; effects that the Rust code only performs through the log
crate (error! / debug! diagnostics) are reified as values so that theorems
can talk about them.  Shared Arc-backed cells (the state of a ManualFuture
or ManualStream) are modelled as entries of an explicit heap keyed by
invocation id, which is exactly the role the Arc plays in the source.
-/

namespace SignalR

/-- Outcome of running a piece of Rust code that may panic. -/
inductive PanicOr (α : Type) where
  | panic (msg : String)
  | ok (val : α)
  deriving Repr, DecidableEq

namespace PanicOr

/-- Sequencing that propagates a panic, mirroring Rust unwinding. -/
def bind {α β : Type} : PanicOr α → (α → PanicOr β) → PanicOr β
  | .panic m, _ => .panic m
  | .ok v, f => f v

/-- True when the computation panicked. -/
def isPanic {α : Type} : PanicOr α → Bool
  | .panic _ => true
  | .ok _ => false

end PanicOr

/-- Message type tags of the JSON hub protocol
(src/protocol/negotiate.rs, enum MessageType). -/
inductive MessageType where
  | Invocation
  | StreamItem
  | Completion
  | StreamInvocation
  | CancelInvocation
  | Ping
  | Close
  | Other
  deriving Repr, DecidableEq

/-- Wire tag value of each message type (repr(u8) discriminants). -/
def MessageType.tag : MessageType → Nat
  | .Invocation => 1
  | .StreamItem => 2
  | .Completion => 3
  | .StreamInvocation => 4
  | .CancelInvocation => 5
  | .Ping => 6
  | .Close => 7
  | .Other => 8

/-! ### Manual single-shot future (src/completer/manual_future.rs)

The shared cell behind the Arc<Mutex<State<T>>> is the FutureState value;
wakers are modelled by task identifiers (Nat).  Each operation returns the
new cell contents together with the list of wakers it actually woke. -/

/-- State of the shared cell of a ManualFuture (enum State<T>). -/
inductive FutureState (T : Type) where
  | Incomplete
  | Waiting (waker : Nat)
  | Complete (val : Option T)
  deriving Repr, DecidableEq

/-- Result of polling a future. -/
inductive PollResult (T : Type) where
  | Ready (val : T)
  | Pending
  deriving Repr, DecidableEq

namespace ManualFuture

/-- ManualFutureCompleter::complete.  Replaces the state with
Complete(Some value); wakes a registered waiter; panics when the cell was
already Complete (completed or cancelled before). -/
def complete {T : Type} (state : FutureState T) (value : T) :
    PanicOr (FutureState T × List Nat) :=
  match state with
  | .Incomplete => .ok (.Complete (some value), [])
  | .Waiting w => .ok (.Complete (some value), [w])
  | .Complete _ =>
      .panic "Future is completed or cancelled already. This happened because complete method is called more than once or after cancel is called."

/-- ManualFutureCompleter::cancel.  Replaces the state with Complete(None).
The match in the source discards the previous state, so a Waiting waker is
dropped without being woken: the returned wake list is always empty. -/
def cancel {T : Type} (_state : FutureState T) : FutureState T × List Nat :=
  (.Complete none, [])

/-- ManualFuture::poll with the calling task's waker id.  On
Complete(Some v) the value is taken and Ready is returned; on
Complete(None) (cancelled or double polled) the source only logs and
returns Poll::Pending. -/
def poll {T : Type} (state : FutureState T) (cx : Nat) :
    FutureState T × PollResult T :=
  match state with
  | .Incomplete => (.Waiting cx, .Pending)
  | .Waiting w => if w = cx then (.Waiting w, .Pending) else (.Waiting cx, .Pending)
  | .Complete (some v) => (.Complete none, .Ready v)
  | .Complete none => (.Complete none, .Pending)

/-- ManualFuture::is_completed / ManualFutureCompleter::is_completed. -/
def is_completed {T : Type} (state : FutureState T) : Bool :=
  match state with
  | .Incomplete => false
  | .Waiting _ => false
  | .Complete _ => true

end ManualFuture

/-! ### Manual multi-item stream (src/completer/manual_stream.rs)

The shared ManualStreamState is a queue of Option items (None marks end of
stream) together with an optional registered waker. -/

/-- Shared state of a ManualStream (struct ManualStreamState<T>). -/
structure StreamState (T : Type) where
  queue : List (Option T)
  waker : Option Nat
  deriving Repr, DecidableEq

namespace ManualStream

/-- ManualStreamState::push: enqueue Some item and wake a waiting consumer. -/
def push {T : Type} (s : StreamState T) (item : T) : StreamState T × List Nat :=
  ({ queue := s.queue ++ [some item], waker := none },
   match s.waker with
   | some w => [w]
   | none => [])

/-- ManualStreamState::close: enqueue the end-of-stream marker and wake. -/
def close {T : Type} (s : StreamState T) : StreamState T × List Nat :=
  ({ queue := s.queue ++ [none], waker := none },
   match s.waker with
   | some w => [w]
   | none => [])

end ManualStream

/-! ### Protocol records (src/protocol/invoke.rs, streaming.rs)

JSON argument values are modelled by a small value type; the numeric
leaves are irrelevant to every claim, only equality and the as_str view
matter. -/

/-- Model of serde_json::Value as far as the client inspects it: the
client only compares values and applies as_str, so arrays and objects are
carried as raw serialized text. -/
inductive JsonValue where
  | null
  | bool (b : Bool)
  | num (n : Int)
  | str (s : String)
  | composite (text : String)
  deriving Repr, DecidableEq

/-- Model of serde_json::Value::as_str: Some only for string values. -/
def JsonValue.as_str : JsonValue → Option String
  | .str s => some s
  | _ => none

/-- Invocation record (struct Invocation in src/protocol/invoke.rs). -/
structure Invocation where
  type : MessageType
  headers : Option (List (String × String))
  invocation_id : Option String
  target : String
  arguments : Option (List JsonValue)
  stream_ids : Option (List String)
  deriving Repr, DecidableEq

/-- Invocation::create_single. -/
def Invocation.create_single (target : String) : Invocation :=
  { type := .Invocation, headers := none, invocation_id := none,
    target := target, arguments := some [], stream_ids := none }

/-- Invocation::create_multiple. -/
def Invocation.create_multiple (target : String) : Invocation :=
  { type := .StreamInvocation, headers := none, invocation_id := none,
    target := target, arguments := some [], stream_ids := none }

/-- Invocation::with_invocation_id. -/
def Invocation.with_invocation_id (i : Invocation) (invocation_id : String) : Invocation :=
  { i with invocation_id := some invocation_id }

/-- Invocation::get_target. -/
def Invocation.get_target (i : Invocation) : String :=
  i.target

/-- Completion record (struct Completion<R> in src/protocol/invoke.rs). -/
structure Completion (R : Type) where
  type : MessageType
  headers : Option (List (String × String))
  invocation_id : String
  result : Option R
  error : Option String
  deriving Repr, DecidableEq

/-- Completion::is_result. -/
def Completion.is_result {R : Type} (c : Completion R) : Bool :=
  c.result.isSome

/-- Completion::is_error. -/
def Completion.is_error {R : Type} (c : Completion R) : Bool :=
  c.error.isSome

/-- Shape-agnostic envelope (struct PossibleInvocation in invoke.rs). -/
structure PossibleInvocation where
  type : MessageType
  headers : Option (List (String × String))
  invocation_id : Option String
  target : Option String
  deriving Repr, DecidableEq

/-- StreamItem record (struct StreamItem<I> in src/protocol/streaming.rs). -/
structure StreamItem (I : Type) where
  type : MessageType
  headers : Option (List (String × String))
  invocation_id : String
  item : I
  deriving Repr, DecidableEq

/-- Views of one raw inbound frame through the serde parsers the registry
code applies to it.  Each field is the outcome of
MessageParser::parse_message at the corresponding type: none stands for a
parse error.  A theorem instantiates these views consistently with what
serde_json does on its concrete frame. -/
structure ParsedViews (R : Type) where
  asInvocation : Option Invocation
  asPossible : Option PossibleInvocation
  asCompletion : Option (Completion R)
  asStreamItem : Option (StreamItem R)
  deriving Repr

/-! ### Registry actions (src/execution/invocation.rs, enumerable.rs,
callback.rs) and the keyed storage (src/execution/storage.rs,
storage_tokio.rs)

An InvocationAction owns Option<ManualFutureCompleter<R>>; the Arc-shared
cell behind the completer lives in the session heap below, so the action
itself only records whether the completer is still present.  Likewise the
EnumerableAction's ManualStreamCompleter points at a StreamState cell in
the heap. -/

/-- The three registry entry kinds behind Box<dyn UpdatableAction>. -/
inductive Action (R : Type) where
  | invocationA (invocation_id : String) (hasCompleter : Bool)
  | enumerableA (invocation_id : String) (completed : Bool)
  | callbackA (target : String)
  deriving Repr, DecidableEq

/-- Log diagnostics and observable consequences of registry processing,
reified so theorems can quantify over them. -/
inductive Effect where
  | delivered (key : String) (woken : List Nat)
  | remoteErrorLogged (key : String) (err : String)
  | parseErrorLogged (key : String)
  | streamParseErrorLogged (key : String)
  | keyNotFound (key : String)
  | insertRejected (key : String)
  | streamPushed (key : String) (woken : List Nat)
  | streamClosed (key : String) (woken : List Nat)
  | callbackInvoked (target : String)
  | cancelledOnDrop (key : String)
  | debugOnly (note : String)
  deriving Repr, DecidableEq

/-- Whole registry state shared by all clones of a client: the HashMap of
actions, the heap of Arc-shared future/stream cells keyed by invocation
id, and the monotonic correlation counter. -/
structure Session (R : Type) where
  data : List (String × Action R)
  futures : List (String × FutureState R)
  streams : List (String × StreamState R)
  index : Nat
  deriving Repr, DecidableEq

/-- Read a shared cell from a heap, with a default for the unreachable
missing-cell case (in Rust the Arc makes the cell always present). -/
def heapGet {α : Type} (h : List (String × α)) (k : String) (dflt : α) : α :=
  (h.lookup k).getD dflt

/-- Write a shared cell in a heap (in-place update through the Arc). -/
def heapSet {α : Type} (h : List (String × α)) (k : String) (v : α) :
    List (String × α) :=
  h.map (fun p => if p.1 = k then (k, v) else p)

namespace Action

/-- UpdatableAction::update_with for the three impls.  The action receives
the shared cells for its key and the parse views of the raw frame, and
returns the updated action, cells and diagnostics; .panic mirrors the
panic arms and the .unwrap() calls of the source. -/
def update_with {R : Type} (a : Action R) (fut : FutureState R)
    (st : StreamState R) (views : ParsedViews R) (t : MessageType) :
    PanicOr (Action R × FutureState R × StreamState R × List Effect) :=
  match a with
  | .callbackA target =>
      match t with
      | .Invocation =>
          match views.asInvocation with
          | none => .panic "called Result::unwrap on an Err value"
          | some _inv => .ok (.callbackA target, fut, st, [.callbackInvoked target])
      | _ => .panic "Callbacks accept only invocation data"
  | .invocationA id hasCompleter =>
      match t with
      | .Completion =>
          match views.asCompletion with
          | some c =>
              match c.result with
              | some v =>
                  match hasCompleter with
                  | false => .panic "called Option::unwrap on a None value"
                  | true =>
                      PanicOr.bind (ManualFuture.complete fut v) (fun r =>
                        .ok (.invocationA id false, r.1, st, [.delivered id r.2]))
              | none =>
                  match c.error with
                  | some e => .ok (.invocationA id hasCompleter, fut, st, [.remoteErrorLogged id e])
                  | none => .panic "called Option::unwrap on a None value"
          | none => .ok (.invocationA id hasCompleter, fut, st, [.parseErrorLogged id])
      | _ => .panic "Cannot complete invocation with this message type"
  | .enumerableA id completed =>
      match t with
      | .StreamItem =>
          match views.asStreamItem with
          | some it =>
              let r := ManualStream.push st it.item
              .ok (.enumerableA id completed, fut, r.1, [.streamPushed id r.2])
          | none => .ok (.enumerableA id completed, fut, st, [.streamParseErrorLogged id])
      | .Completion =>
          match views.asCompletion with
          | some _ =>
              let r := ManualStream.close st
              .ok (.enumerableA id completed, fut, r.1, [.streamClosed id r.2])
          | none => .ok (.enumerableA id completed, fut, st, [.parseErrorLogged id])
      | _ => .panic "Cannot update stream with this message type"

/-- Drop glue of the actions: InvocationAction::drop cancels a still-held
completer (without waking, see ManualFuture.cancel), EnumerableAction::drop
closes the stream, CallbackAction merely drops its fields. -/
def dropDispose {R : Type} (a : Action R) (fut : FutureState R)
    (st : StreamState R) : FutureState R × StreamState R × List Effect :=
  match a with
  | .invocationA id hasCompleter =>
      match hasCompleter with
      | true => ((ManualFuture.cancel fut).1, st, [.cancelledOnDrop id])
      | false => (fut, st, [])
  | .enumerableA id _ =>
      let r := ManualStream.close st
      (fut, r.1, [.streamClosed id r.2])
  | .callbackA _ => (fut, st, [])

end Action

/-- Width of the usize counter on the 64-bit target platform: the
source's *index += 1 is machine arithmetic that wraps at this modulus
(release-build semantics). -/
def USIZE : Nat :=
  2 ^ 64

namespace Storage

/-- UpdatableActionStorage::insert: a duplicate key is rejected with a
diagnostic and the old entry is retained. -/
def insert {R : Type} (s : Session R) (key : String) (a : Action R) :
    Session R × List Effect :=
  if (s.data.lookup key).isSome then
    (s, [.insertRejected key])
  else
    ({ s with data := (key, a) :: s.data }, [])

/-- UpdatableActionStorage::contains. -/
def contains {R : Type} (s : Session R) (key : String) : Bool :=
  (s.data.lookup key).isSome

/-- UpdatableActionStorage::increment: the counter is bumped first and the
new value returned; the += on the usize wraps at the machine width. -/
def increment {R : Type} (s : Session R) : Session R × Nat :=
  ({ s with index := (s.index + 1) % USIZE }, (s.index + 1) % USIZE)

/-- UpdatableActionStorage::update specialised to the only closure the
source ever passes, namely update_with on the raw frame: looks up the
action, runs it against the shared cells, stores the results back.  A
missing key only logs a diagnostic. -/
def updateWith {R : Type} (s : Session R) (key : String)
    (views : ParsedViews R) (t : MessageType) :
    PanicOr (Session R × List Effect) :=
  match s.data.lookup key with
  | none => .ok (s, [.keyNotFound key])
  | some a =>
      let fut := heapGet s.futures key .Incomplete
      let st := heapGet s.streams key { queue := [], waker := none }
      PanicOr.bind (a.update_with fut st views t) (fun r =>
        .ok ({ s with
                data := s.data.map (fun p => if p.1 = key then (key, r.1) else p),
                futures := heapSet s.futures key r.2.1,
                streams := heapSet s.streams key r.2.2.1 },
             r.2.2.2))

/-- UpdatableActionStorage::remove: takes the entry out of the map and
drops it, running the drop glue of the removed action. -/
def remove {R : Type} (s : Session R) (key : String) :
    Session R × List Effect :=
  match s.data.lookup key with
  | none => (s, [])
  | some a =>
      let fut := heapGet s.futures key .Incomplete
      let st := heapGet s.streams key { queue := [], waker := none }
      let r := a.dropDispose fut st
      ({ s with
          data := s.data.filter (fun p => p.1 ≠ key),
          futures := heapSet s.futures key r.1,
          streams := heapSet s.streams key r.2.1 },
       r.2.2)

/-- Storage::process_message: the routing dispatcher of the registry.  The
raw frame text is represented by its parse views (what
MessageParser::parse_message returns on it at each type the code tries).
The .unwrap() calls of the source on the envelope parses surface as
.panic. -/
def process_message {R : Type} (s : Session R) (views : ParsedViews R)
    (t : MessageType) : PanicOr (Session R × List Effect) :=
  match t with
  | .Invocation =>
      match views.asInvocation with
      | none => .panic "called Result::unwrap on an Err value"
      | some inv => updateWith s inv.get_target views .Invocation
  | .StreamItem =>
      match views.asPossible with
      | none => .panic "called Result::unwrap on an Err value"
      | some p =>
          match p.invocation_id with
          | some key => updateWith s key views .StreamItem
          | none => .ok (s, [])
  | .Completion =>
      match views.asPossible with
      | none => .panic "called Result::unwrap on an Err value"
      | some p =>
          match p.invocation_id with
          | some key =>
              PanicOr.bind (updateWith s key views .Completion) (fun r =>
                let r2 := remove r.1 key
                .ok (r2.1, r.2 ++ r2.2))
          | none => .ok (s, [])
  | .StreamInvocation => .ok (s, [.debugOnly "Stream invocation is arrived"])
  | .CancelInvocation => .ok (s, [.debugOnly "Cancel invocation is arrived"])
  | .Ping => .ok (s, [.debugOnly "Ping is arrived"])
  | .Close => .ok (s, [.debugOnly "Close is arrived"])
  | .Other => .ok (s, [.debugOnly "Other is arrived"])

end Storage

/-! ### Correlation keys (Storage::create_key, storage.rs line 52) -/

/-- Decimal digit character, as produced by Display for usize. -/
def digitChar (d : Nat) : Char :=
  Char.ofNat (48 + d)

/-- Little-endian decimal digits of a Nat, written with structural fuel so
that the kernel can evaluate it; it agrees with Mathlib's Nat.digits 10
(proved below as natDigitsRev_eq_digits). -/
def natDigitsRev : Nat → Nat → List Nat
  | 0, _ => []
  | fuel + 1, n => if n = 0 then [] else n % 10 :: natDigitsRev fuel (n / 10)

/-- Decimal rendering of a usize, the effect of the second placeholder of
format!("\x7b\x7d_\x7b\x7d", target, index): most significant digit
first, with 0 rendered as "0". -/
def natDecimal (n : Nat) : String :=
  if n = 0 then "0" else String.mk ((natDigitsRev n n).reverse.map digitChar)

/-- Decimal rendering of an i32 (Display), used for the port segment. -/
def intDecimal (n : Int) : String :=
  if n < 0 then "-" ++ natDecimal n.natAbs else natDecimal n.natAbs

namespace Storage

/-- Storage::create_key: bump the counter and render target_index. -/
def create_key {R : Type} (s : Session R) (target : String) :
    Session R × String :=
  let r := increment s
  (r.1, target ++ "_" ++ natDecimal r.2)

/-- Storage::add_invocation: create the future pair — the fresh shared
cell goes to the heap in state Incomplete — and insert the action. -/
def add_invocation {R : Type} (s : Session R) (invocation_id : String) :
    Session R × List Effect :=
  let s1 := { s with futures := (invocation_id, FutureState.Incomplete) :: s.futures }
  insert s1 invocation_id (.invocationA invocation_id true)

/-- Storage::add_stream: create the stream pair and insert the action. -/
def add_stream {R : Type} (s : Session R) (invocation_id : String) :
    Session R × List Effect :=
  let s1 := { s with streams := (invocation_id, ({ queue := [], waker := none } : StreamState R)) :: s.streams }
  insert s1 invocation_id (.enumerableA invocation_id false)

/-- Storage::add_callback: insert a CallbackAction keyed by the target. -/
def add_callback {R : Type} (s : Session R) (target : String) :
    Session R × List Effect :=
  insert s target (.callbackA target)

/-- UpdatableActionStorage::dispose, run whenever a clone of the storage
is dropped: only the holder of the last Arc reference
(strong_count == 1) clears the map. -/
def dispose {R : Type} (s : Session R) (strongCount : Nat) : Session R :=
  if strongCount = 1 then { s with data := [] } else s

end Storage

/-- Registry of a freshly connected client: empty map, counter 0
(UpdatableActionStorage::new). -/
def freshSession (R : Type) : Session R :=
  { data := [], futures := [], streams := [], index := 0 }

/-- Correlation ids allocated by a sequence of invoke / enumerate calls
sharing one registry: each call draws its id from Storage::create_key on
its target. -/
def allocateKeys {R : Type} (s : Session R) : List String → Session R × List String
  | [] => (s, [])
  | t :: ts =>
      let r := Storage.create_key s t
      let rest := allocateKeys r.1 ts
      (rest.1, r.2 :: rest.2)

/-! ### Frame codec (src/protocol/messages.rs) and inbound splitting
(CommunicationClient::get_messages, src/communication/client_tokio.rs)

Frames are modelled as lists of characters; serde_json serialization is an
oracle parameter (ser / parse), since serde lives outside this repository.  What is
verified is the record-separator discipline built on top of it. -/

/-- The record separator U+001E (const RECORD_SEPARATOR). -/
def RS : Char :=
  Char.ofNat 30

/-- MessageParser::to_json: the serde_json text of the value followed by
the record separator. -/
def to_json {α : Type} (ser : α → List Char) (value : α) : List Char :=
  ser value ++ [RS]

/-- MessageParser::strip_record_separator, i.e. str::trim_end_matches with
the single-character RECORD_SEPARATOR pattern: remove every trailing
record separator. -/
def strip_record_separator (s : List Char) : List Char :=
  (s.reverse.dropWhile (fun c => c == RS)).reverse

/-- MessageParser::parse_message through the serde oracle. -/
def parse_message {α : Type} (parse : List Char → Option α) (s : List Char) :
    Option α :=
  parse s

/-- Semantics of str::split with a one-character pattern: n separators
yield n + 1 (possibly empty) pieces, in order. -/
def splitRS : List Char → List (List Char)
  | [] => [[]]
  | c :: cs =>
      if c = RS then
        [] :: splitRS cs
      else
        match splitRS cs with
        | [] => [[c]]
        | h :: t => (c :: h) :: t

/-- CommunicationClient::get_messages on a text websocket frame: split on
the record separator, strip stray trailing separators, drop empty
fragments. -/
def get_messages (txt : List Char) : List (List Char) :=
  ((splitRS txt).map strip_record_separator).filter (fun s => s.length > 0)

/-! ### Connection configuration (src/client/configuration.rs) -/

/-- Authentication mode. -/
inductive Authentication where
  | None'
  | Basic (user : String) (password : Option String)
  | Bearer (token : String)
  deriving Repr, DecidableEq

/-- Builder state of a connection (struct ConnectionConfiguration). -/
structure ConnectionConfiguration where
  _secure : Bool
  _domain : String
  _hub : String
  _port : Option Int
  _authentication : Authentication
  _query_params : List (String × String)
  deriving Repr, DecidableEq

namespace ConnectionConfiguration

/-- ConnectionConfiguration::new. -/
def new (domain : String) (hub : String) : ConnectionConfiguration :=
  { _authentication := .None', _domain := domain, _secure := true,
    _hub := hub, _port := none, _query_params := [] }

/-- ConnectionConfiguration::with_port. -/
def with_port (c : ConnectionConfiguration) (port : Int) : ConnectionConfiguration :=
  { c with _port := some port }

/-- ConnectionConfiguration::with_hub. -/
def with_hub (c : ConnectionConfiguration) (hub : String) : ConnectionConfiguration :=
  { c with _hub := hub }

/-- ConnectionConfiguration::secure. -/
def secure (c : ConnectionConfiguration) : ConnectionConfiguration :=
  { c with _secure := true }

/-- ConnectionConfiguration::unsecure. -/
def unsecure (c : ConnectionConfiguration) : ConnectionConfiguration :=
  { c with _secure := false }

/-- ConnectionConfiguration::with_query_param. -/
def with_query_param (c : ConnectionConfiguration) (key value : String) :
    ConnectionConfiguration :=
  { c with _query_params := c._query_params ++ [(key, value)] }

/-- ConnectionConfiguration::with_access_token. -/
def with_access_token (c : ConnectionConfiguration) (token : String) :
    ConnectionConfiguration :=
  c.with_query_param "access_token" token

/-- ConnectionConfiguration::get_http_schema. -/
def get_http_schema (c : ConnectionConfiguration) : String :=
  if c._secure then "https" else "http"

/-- ConnectionConfiguration::get_socket_schema. -/
def get_socket_schema (c : ConnectionConfiguration) : String :=
  if c._secure then "wss" else "ws"

/-- ConnectionConfiguration::get_domain: domain, with :port appended when
a port is set. -/
def get_domain (c : ConnectionConfiguration) : String :=
  match c._port with
  | some port => c._domain ++ ":" ++ intDecimal port
  | none => c._domain

/-- Rendered query string k1=v1&k2=v2 shared by the URL getters. -/
def renderParams (ps : List (String × String)) : String :=
  String.intercalate "&" (ps.map (fun p => p.1 ++ "=" ++ p.2))

/-- ConnectionConfiguration::get_web_url. -/
def get_web_url (c : ConnectionConfiguration) : String :=
  let base_url := c.get_http_schema ++ "://" ++ c.get_domain ++ "/" ++ c._hub
  if c._query_params.isEmpty then
    base_url
  else
    base_url ++ "?" ++ renderParams c._query_params

/-- ConnectionConfiguration::get_socket_url. -/
def get_socket_url (c : ConnectionConfiguration) : String :=
  let base_url := c.get_socket_schema ++ "://" ++ c.get_domain ++ "/" ++ c._hub
  if c._query_params.isEmpty then
    base_url
  else
    base_url ++ "?" ++ renderParams c._query_params

/-- ConnectionConfiguration::get_negotiate_url: appends &negotiate when
the web url already contains a question mark, /negotiate otherwise. -/
def get_negotiate_url (c : ConnectionConfiguration) : String :=
  let url := c.get_web_url
  if url.data.contains (Char.ofNat 63) then
    url ++ "&negotiate"
  else
    url ++ "/negotiate"

end ConnectionConfiguration

/-! ### Tokio transport adapter (src/communication/client_tokio.rs) -/

/-- Outcome of awaiting one frame on the websocket read half
(read.next().await): Some(Ok(frame)), Some(Err(e)), or None. -/
inductive InboundFrame where
  | okFrame (content : String)
  | errFrame (e : String)
  | streamEnd
  deriving Repr, DecidableEq

/-- Handshake phase of CommunicationClient::connect_internal, after the
handshake request frame has been written: exactly one inbound frame is
awaited (read.next().await); a transport-level Ok starts the receive loop
and reports success without ever parsing the frame content, a
transport-level Err or end of stream aborts. -/
def connect_handshake (hand : InboundFrame) : Except String Unit :=
  match hand with
  | .okFrame _content => .ok ()
  | .errFrame e => .error e
  | .streamEnd => .error "Handshake error"

/-- Connection state of a CommunicationClient handle. -/
inductive ConnectionState where
  | NotConnected
  | Connected
  deriving Repr, DecidableEq

/-- CommunicationClient::disconnect for one handle, given the strong count
of the Arc around the shared connection: only the last reference actually
drops the connection, other handles leave it untouched. -/
def CommunicationClient.disconnect (state : ConnectionState)
    (strongCount : Nat) : ConnectionState :=
  match state with
  | .NotConnected => .NotConnected
  | .Connected => if strongCount - 1 = 0 then .NotConnected else .Connected

/-! ### Invocation context (src/client/context.rs) -/

/-- Outcome of InvocationContext::argument, with the panic of the
as_str().unwrap() call in its deserialization-failure diagnostic made
explicit. -/
inductive ArgumentResult (T : Type) where
  | ok (val : T)
  | err (msg : String)
  | panicked (msg : String)
  deriving Repr, DecidableEq

/-- InvocationContext::argument::<T>(index): positional zero-based lookup
in the carried invocation's argument list, with the exact branch structure
of the source; deserialization of a JSON value into T goes through the
serde oracle parameter. -/
def InvocationContext.argument {T : Type} (invocation : Invocation)
    (deser : JsonValue → Option T) (index : Nat) : ArgumentResult T :=
  match invocation.arguments with
  | none => .err "There are no arguments for the invocation"
  | some arguments =>
      if arguments.length > index then
        match arguments.get? index with
        | some value =>
            match deser value with
            | some v => .ok v
            | none =>
                match value.as_str with
                | some s => .err ("The argument cannot be deserialized to the requested type " ++ s)
                | none => .panicked "called Option::unwrap on a None value"
        | none => .err ("The argument does not exist at the given index " ++ natDecimal index)
      else
        .err ("The argument count is not greater than the index " ++ natDecimal index)

/-- Negotiate URL as the specification document words it: the web URL
suffixed with /negotiate when no query parameters are present, with
&negotiate otherwise.  Stated separately from the source-derived
ConnectionConfiguration.get_negotiate_url so the two can be compared. -/
def specNegotiateUrl (c : ConnectionConfiguration) : String :=
  if c._query_params.isEmpty then
    c.get_web_url ++ "/negotiate"
  else
    c.get_web_url ++ "&negotiate"

/-! ## Theorems -/

/-- C2: refuted as stated.  ManualFutureCompleter::cancel replaces the
state with Complete(None) but its match discards the previous Waiting
state, so a registered waiter is never woken; and a subsequent poll of the
cancelled future hits the Complete(None) arm, which only logs and returns
Poll::Pending, not a terminal Cancelled outcome.  So a pending invoke
future hangs on teardown instead of resolving to Cancelled. -/
theorem cancel_drops_waiter_and_poll_pends :
    (∀ st : FutureState Nat, (ManualFuture.cancel st).2 = []) ∧
    (ManualFuture.cancel (FutureState.Waiting 0 : FutureState Nat)).1 =
      FutureState.Complete none ∧
    (ManualFuture.poll
      (ManualFuture.cancel (FutureState.Waiting 0 : FutureState Nat)).1 5).2 =
      PollResult.Pending := by
  exact ⟨fun st => rfl, rfl, rfl⟩

/-- C3: refuted as stated.  After writing the handshake request, the tokio
connect path awaits exactly one inbound frame but never parses it as a
HandshakeResponse: any successfully received frame content — including a
handshake response that carries an error field — yields a successfully
connected client. -/
theorem connect_handshake_ignores_content :
    (∀ content : String,
      connect_handshake (InboundFrame.okFrame content) = Except.ok ()) ∧
    connect_handshake (InboundFrame.okFrame "\x7b\"error\":\"oops\"\x7d") =
      Except.ok () := by
  exact ⟨fun content => rfl, rfl⟩

/-- C4: refuted as stated.  Registry message processing panics on
data-driven conditions: a malformed frame of a known type reaches the
.unwrap() on the envelope parse and panics, and a StreamItem frame routed
to an InvocationAction hits the panic arm of
InvocationAction::update_with instead of being dropped with a
diagnostic. -/
theorem process_message_panics_on_bad_frames :
    Storage.process_message (freshSession Nat)
      { asInvocation := none, asPossible := none, asCompletion := none,
        asStreamItem := none }
      MessageType.Invocation =
      PanicOr.panic "called Result::unwrap on an Err value" ∧
    Storage.process_message
      ({ data := [("SingleEntity_1", Action.invocationA "SingleEntity_1" true)],
         futures := [("SingleEntity_1", FutureState.Waiting 0)],
         streams := [], index := 1 } : Session Nat)
      { asInvocation := none,
        asPossible := some { type := .StreamItem, headers := none,
                             invocation_id := some "SingleEntity_1", target := none },
        asCompletion := some { type := .StreamItem, headers := none,
                               invocation_id := "SingleEntity_1", result := none,
                               error := none },
        asStreamItem := some { type := .StreamItem, headers := none,
                               invocation_id := "SingleEntity_1", item := 5 } }
      MessageType.StreamItem =
      PanicOr.panic "Cannot complete invocation with this message type" := by
  exact ⟨rfl, rfl⟩

/-- C1: refuted as stated.  A Completion frame carrying error and no
result is routed to the pending InvocationAction, which only logs the
error without completing the future; the registry then removes the entry,
whose drop glue cancels the completer without waking the waiter, and a
subsequent poll of the invoke future still returns Pending.  The awaiting
caller therefore never observes a RemoteError outcome — the future stays
pending forever. -/
theorem completion_error_leaves_future_pending :
    Storage.process_message
      ({ data := [("SingleEntity_1", Action.invocationA "SingleEntity_1" true)],
         futures := [("SingleEntity_1", FutureState.Waiting 0)],
         streams := [], index := 1 } : Session Nat)
      { asInvocation := none,
        asPossible := some { type := .Completion, headers := none,
                             invocation_id := some "SingleEntity_1", target := none },
        asCompletion := some { type := .Completion, headers := none,
                               invocation_id := "SingleEntity_1", result := none,
                               error := some "boom" },
        asStreamItem := none }
      MessageType.Completion =
      PanicOr.ok
        (({ data := [],
            futures := [("SingleEntity_1", FutureState.Complete none)],
            streams := [], index := 1 } : Session Nat),
         [Effect.remoteErrorLogged "SingleEntity_1" "boom",
          Effect.cancelledOnDrop "SingleEntity_1"]) ∧
    (ManualFuture.poll (FutureState.Complete (none : Option Nat)) 0).2 =
      PollResult.Pending := by
  exact ⟨rfl, rfl⟩

/-- C9: a clone of the client dropped or disconnected while other clones
exist leaves the shared registry untouched and the connection connected;
only the holder of the last reference clears the action map and drops the
connection. -/
theorem clone_drop_preserves_shared_state (s : Session Nat) (count : Nat)
    (h : 2 ≤ count) :
    Storage.dispose s count = s ∧
    CommunicationClient.disconnect ConnectionState.Connected count =
      ConnectionState.Connected ∧
    (Storage.dispose s 1).data = [] ∧
    CommunicationClient.disconnect ConnectionState.Connected 1 =
      ConnectionState.NotConnected := by
  refine ⟨?_, ?_, ?_, rfl⟩
  · unfold Storage.dispose
    rw [if_neg (by omega)]
  · unfold CommunicationClient.disconnect
    rw [if_neg (by omega)]
  · rfl

/-- Witness for C9 at a concrete session and strong count 2. -/
theorem clone_drop_preserves_shared_state_witness :
    Storage.dispose (freshSession Nat) 2 = freshSession Nat ∧
    CommunicationClient.disconnect ConnectionState.Connected 2 =
      ConnectionState.Connected ∧
    (Storage.dispose (freshSession Nat) 1).data = [] ∧
    CommunicationClient.disconnect ConnectionState.Connected 1 =
      ConnectionState.NotConnected :=
  clone_drop_preserves_shared_state (freshSession Nat) 2 (by decide)

/-- C10: InvocationContext::argument returns a descriptive Err — and does
not panic — when the invocation carries no argument list at all, or when
the requested index is not below the number of carried arguments; the
context itself is a pure read and is left unchanged. -/
theorem argument_out_of_range_is_err {T : Type} (inv : Invocation)
    (deser : JsonValue → Option T) (index : Nat) :
    (inv.arguments = none →
      InvocationContext.argument inv deser index =
        ArgumentResult.err "There are no arguments for the invocation") ∧
    (∀ args : List JsonValue, inv.arguments = some args →
      args.length ≤ index →
      InvocationContext.argument inv deser index =
        ArgumentResult.err
          ("The argument count is not greater than the index " ++ natDecimal index)) := by
  constructor
  · intro h
    simp [InvocationContext.argument, h]
  · intro args h hlen
    simp only [InvocationContext.argument, h]
    rw [if_neg (by omega)]

/-- Witness for C10 at a no-argument-list invocation and at an index past
the end of an empty argument list. -/
theorem argument_out_of_range_is_err_witness :
    InvocationContext.argument (T := Nat)
      { type := .Invocation, headers := none, invocation_id := none,
        target := "t", arguments := none, stream_ids := none }
      (fun _ => none) 0 =
      ArgumentResult.err "There are no arguments for the invocation" ∧
    InvocationContext.argument (T := Nat) (Invocation.create_single "t")
      (fun _ => none) 2 =
      ArgumentResult.err
        ("The argument count is not greater than the index " ++ natDecimal 2) :=
  ⟨(argument_out_of_range_is_err _ (fun _ => none) 0).1 rfl,
   (argument_out_of_range_is_err _ (fun _ => none) 2).2 [] rfl (by decide)⟩

end SignalR


namespace SignalR

/-- Helper: the fuel-indexed digit list agrees with Mathlib's Nat.digits
in base 10 whenever the fuel dominates the number. -/
theorem natDigitsRev_eq_digits (fuel n : Nat) (h : n ≤ fuel) :
    natDigitsRev fuel n = Nat.digits 10 n := by
  induction fuel generalizing n with
  | zero =>
    interval_cases n
    simp [natDigitsRev]
  | succ f ih =>
    by_cases hn : n = 0
    · simp [natDigitsRev, hn]
    · rw [natDigitsRev, if_neg hn,
        Nat.digits_def' (by norm_num) (Nat.pos_of_ne_zero hn), ih]
      omega

/-- Helper: every digit produced by natDigitsRev is below 10. -/
theorem natDigitsRev_lt (fuel n : Nat) : ∀ d ∈ natDigitsRev fuel n, d < 10 := by
  induction fuel generalizing n with
  | zero => simp [natDigitsRev]
  | succ f ih =>
    intro d hd
    simp only [natDigitsRev] at hd
    by_cases hn : n = 0
    · rw [if_pos hn] at hd
      simp at hd
    · rw [if_neg hn] at hd
      rcases List.mem_cons.1 hd with h1 | h2
      · subst h1
        omega
      · exact ih _ d h2

/-- Helper: digitChar of a digit below ten is a decimal digit character. -/
theorem digitChar_isDigit (d : Nat) (h : d < 10) : (digitChar d).isDigit = true := by
  interval_cases d <;> decide

/-- Helper: digitChar is injective on digits below ten. -/
theorem digitChar_inj_lt (d e : Nat) (hd : d < 10) (he : e < 10)
    (h : digitChar d = digitChar e) : d = e := by
  interval_cases d <;> interval_cases e <;> revert h <;> decide

/-- Helper: every character of the decimal rendering is a digit. -/
theorem natDecimal_data_digits (n : Nat) :
    ∀ c ∈ (natDecimal n).data, c.isDigit = true := by
  intro c hc
  unfold natDecimal at hc
  by_cases hn : n = 0
  · rw [if_pos hn] at hc
    have : c = Char.ofNat 48 := by
      simpa using hc
    subst this
    decide
  · rw [if_neg hn] at hc
    obtain ⟨d, hd, rfl⟩ := List.mem_map.1 hc
    exact digitChar_isDigit d (natDigitsRev_lt n n d (List.mem_reverse.1 hd))

/-- Helper: mapping digitChar over bounded digit lists is injective. -/
theorem map_digitChar_inj {l1 l2 : List Nat} (h1 : ∀ d ∈ l1, d < 10)
    (h2 : ∀ d ∈ l2, d < 10) (h : l1.map digitChar = l2.map digitChar) :
    l1 = l2 := by
  induction l1 generalizing l2 with
  | nil =>
    cases l2 with
    | nil => rfl
    | cons b u => simp at h
  | cons a t ih =>
    cases l2 with
    | nil => simp at h
    | cons b u =>
      simp only [List.map_cons, List.cons.injEq] at h
      have hab : a = b :=
        digitChar_inj_lt a b (h1 a (List.mem_cons_self a t))
          (h2 b (List.mem_cons_self b u)) h.1
      have htu : t = u :=
        ih (fun d hd => h1 d (List.mem_cons_of_mem a hd))
          (fun d hd => h2 d (List.mem_cons_of_mem b hd)) h.2
      rw [hab, htu]

/-- Helper: the decimal rendering is injective. -/
theorem natDecimal_injective : Function.Injective natDecimal := by
  intro m n h
  unfold natDecimal at h
  by_cases hm : m = 0 <;> by_cases hn : n = 0
  · omega
  · exfalso
    rw [if_pos hm, if_neg hn] at h
    have hdata : [Char.ofNat 48] = ((natDigitsRev n n).reverse.map digitChar) :=
      congrArg String.data h
    have hlen : (natDigitsRev n n).reverse.length = 1 := by
      have := congrArg List.length hdata
      simpa using this.symm
    obtain ⟨d, hd⟩ := List.length_eq_one.1 hlen
    rw [hd] at hdata
    have hdc : digitChar d = Char.ofNat 48 := by
      simpa using hdata.symm
    have hdlt : d < 10 :=
      natDigitsRev_lt n n d (List.mem_reverse.1 (hd ▸ List.mem_singleton_self d))
    have hd0 : d = 0 := digitChar_inj_lt d 0 hdlt (by norm_num) (by
      rw [hdc]
      decide)
    have hrev : natDigitsRev n n = [0] := by
      have := congrArg List.reverse hd
      simpa [hd0] using this
    have hdig : Nat.digits 10 n = [0] := by
      rw [← natDigitsRev_eq_digits n n (le_refl n), hrev]
    have := Nat.ofDigits_digits 10 n
    rw [hdig] at this
    simp [Nat.ofDigits] at this
    omega
  · exfalso
    rw [if_neg hm, if_pos hn] at h
    have hdata : ((natDigitsRev m m).reverse.map digitChar) = [Char.ofNat 48] :=
      congrArg String.data h
    have hlen : (natDigitsRev m m).reverse.length = 1 := by
      have := congrArg List.length hdata
      simpa using this
    obtain ⟨d, hd⟩ := List.length_eq_one.1 hlen
    rw [hd] at hdata
    have hdc : digitChar d = Char.ofNat 48 := by
      simpa using hdata
    have hdlt : d < 10 :=
      natDigitsRev_lt m m d (List.mem_reverse.1 (hd ▸ List.mem_singleton_self d))
    have hd0 : d = 0 := digitChar_inj_lt d 0 hdlt (by norm_num) (by
      rw [hdc]
      decide)
    have hrev : natDigitsRev m m = [0] := by
      have := congrArg List.reverse hd
      simpa [hd0] using this
    have hdig : Nat.digits 10 m = [0] := by
      rw [← natDigitsRev_eq_digits m m (le_refl m), hrev]
    have := Nat.ofDigits_digits 10 m
    rw [hdig] at this
    simp [Nat.ofDigits] at this
    omega
  · rw [if_neg hm, if_neg hn] at h
    have hdata : ((natDigitsRev m m).reverse.map digitChar) =
        ((natDigitsRev n n).reverse.map digitChar) :=
      congrArg String.data h
    have hrev : (natDigitsRev m m).reverse = (natDigitsRev n n).reverse :=
      map_digitChar_inj
        (fun d hd => natDigitsRev_lt m m d (List.mem_reverse.1 hd))
        (fun d hd => natDigitsRev_lt n n d (List.mem_reverse.1 hd)) hdata
    have hdig : natDigitsRev m m = natDigitsRev n n :=
      List.reverse_injective hrev
    have h1 := natDigitsRev_eq_digits m m (le_refl m)
    have h2 := natDigitsRev_eq_digits n n (le_refl n)
    have : Nat.digits 10 m = Nat.digits 10 n := by
      rw [← h1, ← h2, hdig]
    calc m = Nat.ofDigits 10 (Nat.digits 10 m) := (Nat.ofDigits_digits 10 m).symm
    _ = Nat.ofDigits 10 (Nat.digits 10 n) := by rw [this]
    _ = n := Nat.ofDigits_digits 10 n

/-- Helper: takeWhile over a block that satisfies the predicate followed
by a failing element returns exactly the block. -/
theorem takeWhile_block {p : Char → Bool} (A B : List Char) (x : Char)
    (hA : ∀ c ∈ A, p c = true) (hx : p x = false) :
    (A ++ x :: B).takeWhile p = A := by
  induction A with
  | nil => simp [List.takeWhile_cons, hx]
  | cons a t ih =>
    have ha : p a = true := hA a (List.mem_cons_self a t)
    simp only [List.cons_append, List.takeWhile_cons, ha, if_true]
    rw [ih (fun c hc => hA c (List.mem_cons_of_mem a hc))]

/-- Helper: the maximal digit suffix of a rendered correlation key is the
decimal counter. -/
theorem key_digit_suffix (t : String) (n : Nat) :
    (t ++ "_" ++ natDecimal n).data.reverse.takeWhile Char.isDigit =
      (natDecimal n).data.reverse := by
  have hdata : (t ++ "_" ++ natDecimal n).data =
      t.data ++ Char.ofNat 95 :: (natDecimal n).data := by
    rw [String.data_append, String.data_append]
    simp
  rw [hdata, List.reverse_append, List.reverse_cons, List.append_assoc]
  exact takeWhile_block _ _ _
    (fun c hc => natDecimal_data_digits n c (List.mem_reverse.1 hc))
    (by decide)

/-- Helper: equal rendered keys force equal counters, whatever the two
targets are. -/
theorem key_counter_inj (t1 t2 : String) (m n : Nat)
    (h : t1 ++ "_" ++ natDecimal m = t2 ++ "_" ++ natDecimal n) : m = n := by
  have hsuf := congrArg
    (fun s : String => s.data.reverse.takeWhile Char.isDigit) h
  simp only [key_digit_suffix] at hsuf
  have hdat : (natDecimal m).data = (natDecimal n).data := by
    have := congrArg List.reverse hsuf
    simpa using this
  exact natDecimal_injective (String.ext hdat)

/-- Helper: the keys produced by a run of create_key calls, for any
starting counter value, with the wrapped counter made explicit. -/
theorem allocateKeys_spec {R : Type} (s : Session R) (ts : List String) :
    (allocateKeys s ts).2 =
      (List.range ts.length).map
        (fun i => ts.getD i "" ++ "_" ++ natDecimal ((s.index + i + 1) % USIZE)) := by
  induction ts generalizing s with
  | nil => simp [allocateKeys]
  | cons t ts ih =>
    simp only [allocateKeys, Storage.create_key, Storage.increment,
      List.length_cons]
    rw [List.range_succ_eq_map, List.map_cons, List.map_map]
    refine congrArg₂ List.cons rfl ?_
    rw [ih]
    apply List.map_congr_left
    intro i _
    simp only [Function.comp]
    have hmod : ((s.index + 1) % USIZE + i + 1) % USIZE =
        (s.index + (i + 1) + 1) % USIZE := by
      rw [Nat.add_assoc, Nat.mod_add_mod]
      congr 1
      omega
    rw [hmod]
    rfl

/-- C6 is refuted as literally stated for every session length: the
usize counter wraps at the machine width, so a session of 2^64 + 1
allocations on one registry reuses counter value 1 and produces the same
id twice — the allocated ids are not pairwise distinct. -/
theorem correlation_ids_wrap_counterexample :
    ¬ ((allocateKeys (freshSession Nat)
        (List.replicate (USIZE + 1) "t")).2).Nodup := by
  intro hnd
  rw [allocateKeys_spec, List.length_replicate] at hnd
  have hpos : 0 < USIZE := by
    norm_num [USIZE]
  have hlen : ((List.range (USIZE + 1)).map
      (fun i => (List.replicate (USIZE + 1) "t").getD i "" ++ "_" ++
        natDecimal (((freshSession Nat).index + i + 1) % USIZE))).length =
      USIZE + 1 := by
    simp
  have hlt0 : 0 < ((List.range (USIZE + 1)).map
      (fun i => (List.replicate (USIZE + 1) "t").getD i "" ++ "_" ++
        natDecimal (((freshSession Nat).index + i + 1) % USIZE))).length := by
    rw [hlen]
    omega
  have hltU : USIZE < ((List.range (USIZE + 1)).map
      (fun i => (List.replicate (USIZE + 1) "t").getD i "" ++ "_" ++
        natDecimal (((freshSession Nat).index + i + 1) % USIZE))).length := by
    rw [hlen]
    omega
  have hmodU : ((freshSession Nat).index + USIZE + 1) % USIZE = 1 % USIZE := by
    show (0 + USIZE + 1) % USIZE = 1 % USIZE
    rw [Nat.zero_add, Nat.add_comm USIZE 1, Nat.add_mod_right]
  have hmod0 : ((freshSession Nat).index + 0 + 1) % USIZE = 1 % USIZE := rfl
  have hg0 : (List.replicate (USIZE + 1) "t").getD 0 "" = "t" := by
    rw [List.getD_eq_getElem?_getD, List.getElem?_replicate, if_pos (by omega)]
    rfl
  have hgU : (List.replicate (USIZE + 1) "t").getD USIZE "" = "t" := by
    rw [List.getD_eq_getElem?_getD, List.getElem?_replicate, if_pos (by omega)]
    rfl
  have heq2 : ((List.range (USIZE + 1)).map
      (fun i => (List.replicate (USIZE + 1) "t").getD i "" ++ "_" ++
        natDecimal (((freshSession Nat).index + i + 1) % USIZE))).get ⟨0, hlt0⟩ =
      ((List.range (USIZE + 1)).map
      (fun i => (List.replicate (USIZE + 1) "t").getD i "" ++ "_" ++
        natDecimal (((freshSession Nat).index + i + 1) % USIZE))).get ⟨USIZE, hltU⟩ := by
    rw [List.get_eq_getElem, List.get_eq_getElem, List.getElem_map,
      List.getElem_map, List.getElem_range, List.getElem_range]
    show (List.replicate (USIZE + 1) "t").getD 0 "" ++ "_" ++
        natDecimal (((freshSession Nat).index + 0 + 1) % USIZE) =
      (List.replicate (USIZE + 1) "t").getD USIZE "" ++ "_" ++
        natDecimal (((freshSession Nat).index + USIZE + 1) % USIZE)
    rw [hmod0, hmodU, hg0, hgU]
  have hfin := (hnd.get_inj_iff).1 heq2
  have : (0 : Nat) = USIZE := congrArg Fin.val hfin
  omega

/-- C6 (amended): for every session of K allocations with K below the
usize width — so the machine counter cannot wrap — the ids have the form
target_n with counters exactly 1, 2, 3, ... in allocation order
(strictly increasing from 1), and they are pairwise distinct whatever
the targets are. -/
theorem correlation_ids_unique (ts : List String)
    (hK : ts.length < USIZE) :
    (allocateKeys (freshSession Nat) ts).2 =
      (List.range ts.length).map
        (fun i => ts.getD i "" ++ "_" ++ natDecimal (i + 1)) ∧
    ((allocateKeys (freshSession Nat) ts).2).Nodup := by
  have heq : (allocateKeys (freshSession Nat) ts).2 =
      (List.range ts.length).map
        (fun i => ts.getD i "" ++ "_" ++ natDecimal (i + 1)) := by
    rw [allocateKeys_spec]
    apply List.map_congr_left
    intro i hi
    have hilt : i < ts.length := List.mem_range.1 hi
    have hmod : ((freshSession Nat).index + i + 1) % USIZE = i + 1 := by
      show (0 + i + 1) % USIZE = i + 1
      rw [Nat.zero_add]
      exact Nat.mod_eq_of_lt (by omega)
    rw [hmod]
  refine ⟨heq, ?_⟩
  rw [heq]
  apply List.Nodup.map ?_ (List.nodup_range _)
  intro i j hij
  have := key_counter_inj _ _ _ _ hij
  omega

/-- Witness for C6 (amended) at a concrete two-call session. -/
theorem correlation_ids_unique_witness :
    (allocateKeys (freshSession Nat) ["SingleEntity", "HundredEntities"]).2 =
      (List.range (["SingleEntity", "HundredEntities"] : List String).length).map
        (fun i => (["SingleEntity", "HundredEntities"] : List String).getD i "" ++
          "_" ++ natDecimal (i + 1)) ∧
    ((allocateKeys (freshSession Nat) ["SingleEntity", "HundredEntities"]).2).Nodup :=
  correlation_ids_unique ["SingleEntity", "HundredEntities"] (by norm_num [USIZE])

/-- Helper: no question mark occurs in a natural decimal rendering. -/
theorem qmark_not_mem_natDecimal (n : Nat) :
    Char.ofNat 63 ∉ (natDecimal n).data := by
  intro h
  have := natDecimal_data_digits n _ h
  revert this
  decide

/-- Helper: no question mark occurs in an integer decimal rendering. -/
theorem qmark_not_mem_intDecimal (p : Int) :
    Char.ofNat 63 ∉ (intDecimal p).data := by
  unfold intDecimal
  by_cases hp : p < 0
  · rw [if_pos hp, String.data_append]
    intro h
    rcases List.mem_append.1 h with h1 | h2
    · revert h1
      decide
    · exact qmark_not_mem_natDecimal _ h2
  · rw [if_neg hp]
    exact qmark_not_mem_natDecimal _

/-- Helper: with no query parameters and question-mark-free domain and
hub, the web URL contains no question mark. -/
theorem qmark_not_mem_web_url (c : ConnectionConfiguration)
    (hq : c._query_params = []) (hd : Char.ofNat 63 ∉ c._domain.data)
    (hh : Char.ofNat 63 ∉ c._hub.data) :
    Char.ofNat 63 ∉ (ConnectionConfiguration.get_web_url c).data := by
  have hdom : Char.ofNat 63 ∉ (ConnectionConfiguration.get_domain c).data := by
    unfold ConnectionConfiguration.get_domain
    cases hport : c._port with
    | none => exact hd
    | some port =>
      simp only [String.data_append]
      exact List.not_mem_append (List.not_mem_append hd (by decide))
        (qmark_not_mem_intDecimal port)
  have hschema : Char.ofNat 63 ∉ (ConnectionConfiguration.get_http_schema c).data := by
    unfold ConnectionConfiguration.get_http_schema
    by_cases hs : c._secure
    · rw [if_pos hs]
      decide
    · rw [if_neg hs]
      decide
  unfold ConnectionConfiguration.get_web_url
  rw [if_pos (by simp [hq])]
  simp only [String.data_append]
  exact List.not_mem_append
    (List.not_mem_append
      (List.not_mem_append (List.not_mem_append hschema (by decide)) hdom)
      (by decide))
    hh

/-- C8 is refuted as literally stated: with hub "h?x" and no query
parameters at all, the code appends &negotiate — get_negotiate_url tests
whether the web URL contains a question mark, not whether query
parameters are present — while the claimed rule demands /negotiate. -/
theorem negotiate_url_counterexample :
    ConnectionConfiguration.get_negotiate_url (ConnectionConfiguration.new "d" "h?x") ≠
      specNegotiateUrl (ConnectionConfiguration.new "d" "h?x") := by
  decide

/-- C8 (amended): the socket URL vector holds exactly as given; the
negotiate URL is the web URL with &negotiate appended whenever query
parameters are present, and with /negotiate appended when no query
parameters are present provided the domain and hub themselves carry no
question mark (the code keys on a question mark in the web URL, not on
the parameter list). -/
theorem url_derivation_amended :
    (ConnectionConfiguration.get_socket_url
      ((((ConnectionConfiguration.new "api.example.com" "deviceRHub").with_port
            443).with_query_param "type" "client").with_access_token "abc") =
      "wss://api.example.com:443/deviceRHub?type=client&access_token=abc") ∧
    (∀ c : ConnectionConfiguration, c._query_params ≠ [] →
      c.get_negotiate_url = c.get_web_url ++ "&negotiate") ∧
    (∀ c : ConnectionConfiguration, c._query_params = [] →
      Char.ofNat 63 ∉ c._domain.data → Char.ofNat 63 ∉ c._hub.data →
      c.get_negotiate_url = c.get_web_url ++ "/negotiate") := by
  refine ⟨by decide, ?_, ?_⟩
  · intro c hq
    unfold ConnectionConfiguration.get_negotiate_url
    rw [if_pos ?_]
    have hmem : Char.ofNat 63 ∈ (ConnectionConfiguration.get_web_url c).data := by
      unfold ConnectionConfiguration.get_web_url
      rw [if_neg (by simp [hq])]
      simp [String.data_append]
    simpa using hmem
  · intro c hq hd hh
    unfold ConnectionConfiguration.get_negotiate_url
    rw [if_neg ?_]
    have hmem := qmark_not_mem_web_url c hq hd hh
    simpa using hmem

/-- Witness for C8 (amended) at the two spec vectors. -/
theorem url_derivation_amended_witness :
    (ConnectionConfiguration.new "localhost" "test").get_negotiate_url =
      (ConnectionConfiguration.new "localhost" "test").get_web_url ++ "/negotiate" ∧
    ((ConnectionConfiguration.new "d" "h").with_query_param "a" "b").get_negotiate_url =
      ((ConnectionConfiguration.new "d" "h").with_query_param "a" "b").get_web_url ++
        "&negotiate" :=
  ⟨url_derivation_amended.2.2 _ rfl (by decide) (by decide),
   url_derivation_amended.2.1 _ (by decide)⟩

/-- Helper: dropWhile on the separator test leaves a list that does not
contain the separator untouched. -/
theorem dropWhile_rs_of_not_mem (l : List Char) (h : RS ∉ l) :
    l.dropWhile (fun c => c == RS) = l := by
  cases l with
  | nil => rfl
  | cons x xs =>
    rw [List.dropWhile_cons]
    have hx : (x == RS) = false := by
      have : x ≠ RS := fun e => h (e ▸ List.mem_cons_self x xs)
      simpa using this
    simp [hx]

/-- Helper: stripping is the identity on separator-free text. -/
theorem strip_of_not_mem (l : List Char) (h : RS ∉ l) :
    strip_record_separator l = l := by
  unfold strip_record_separator
  rw [dropWhile_rs_of_not_mem _ (by simpa using h), List.reverse_reverse]

/-- Helper: stripping removes the single trailing separator of an encoded
frame. -/
theorem strip_encoded (A : List Char) (h : RS ∉ A) :
    strip_record_separator (A ++ [RS]) = A := by
  unfold strip_record_separator
  rw [List.reverse_append]
  show ((RS :: A.reverse).dropWhile (fun c => c == RS)).reverse = A
  rw [List.dropWhile_cons]
  simp only [beq_self_eq_true, if_true]
  rw [dropWhile_rs_of_not_mem _ (by simpa using h), List.reverse_reverse]

/-- Helper: splitting a separator-free block followed by a separator
peels off exactly that block. -/
theorem splitRS_append (A rest : List Char) (h : RS ∉ A) :
    splitRS (A ++ RS :: rest) = A :: splitRS rest := by
  induction A with
  | nil =>
    simp [splitRS]
  | cons a t ih =>
    have ha : ¬ a = RS := fun e => h (e ▸ List.mem_cons_self a t)
    have ht : RS ∉ t := fun e => h (List.mem_cons_of_mem a e)
    rw [List.cons_append, splitRS, if_neg ha, ih ht]

/-- Helper: splitting the concatenation of encoded frames and filtering
empties recovers the frame bodies in order. -/
theorem get_messages_concat {α : Type} (ser : α → List Char)
    (hnoRS : ∀ v, RS ∉ ser v) (hne : ∀ v, ser v ≠ [])
    (frames : List α) :
    get_messages ((frames.map (to_json ser)).flatten) = frames.map ser := by
  induction frames with
  | nil => rfl
  | cons f fs ih =>
    unfold get_messages at ih ⊢
    rw [List.map_cons, List.flatten_cons]
    have hshape : to_json ser f ++ (fs.map (to_json ser)).flatten =
        ser f ++ RS :: (fs.map (to_json ser)).flatten := by
      unfold to_json
      rw [List.append_assoc]
      rfl
    rw [hshape, splitRS_append _ _ (hnoRS f), List.map_cons,
      strip_of_not_mem _ (hnoRS f), List.filter_cons, List.map_cons]
    have hlen : (ser f).length > 0 := by
      simp [List.length_pos, hne f]
    simp only [decide_eq_true_eq]
    rw [if_pos hlen, ih]

/-- C7: encoding appends exactly one record separator after the JSON text
(the separator count of an encoded frame is one and its last character is
the separator), stripping then parsing recovers the original value, and a
concatenation of encoded frames splits back into exactly the original
frame bodies in order with no empty fragment surviving the filter.  The
serde serializer is an oracle whose output is nonempty, separator-free
text inverted by its parser. -/
theorem record_separator_round_trip {α : Type} (ser : α → List Char)
    (parse : List Char → Option α)
    (hnoRS : ∀ v, RS ∉ ser v) (hne : ∀ v, ser v ≠ [])
    (hinv : ∀ v, parse (ser v) = some v) :
    (∀ v, (to_json ser v).count RS = 1 ∧
      (to_json ser v).getLast? = some RS) ∧
    (∀ v, parse_message parse (strip_record_separator (to_json ser v)) = some v) ∧
    (∀ frames : List α,
      get_messages ((frames.map (to_json ser)).flatten) = frames.map ser) := by
  refine ⟨fun v => ⟨?_, ?_⟩, fun v => ?_, get_messages_concat ser hnoRS hne⟩
  · unfold to_json
    rw [List.count_append]
    have h0 : (ser v).count RS = 0 := List.count_eq_zero_of_not_mem (hnoRS v)
    rw [h0]
    rfl
  · unfold to_json
    exact List.getLast?_concat _
  · unfold to_json parse_message
    rw [strip_encoded _ (hnoRS v)]
    exact hinv v

/-- Witness for C7 with a two-valued serializer: true encodes as t, false
as f; a two-frame concatenation splits back into the two bodies and a
stripped single frame parses back. -/
theorem record_separator_round_trip_witness :
    get_messages (([true, false].map
      (to_json (fun b => if b then [Char.ofNat 116] else [Char.ofNat 102]))).flatten) =
      [[Char.ofNat 116], [Char.ofNat 102]] ∧
    parse_message
      (fun l => if l = [Char.ofNat 116] then some true
        else if l = [Char.ofNat 102] then some false else none)
      (strip_record_separator
        (to_json (fun b => if b then [Char.ofNat 116] else [Char.ofNat 102]) true)) =
      some true :=
  ⟨(record_separator_round_trip
      (fun b => if b then [Char.ofNat 116] else [Char.ofNat 102])
      (fun l => if l = [Char.ofNat 116] then some true
        else if l = [Char.ofNat 102] then some false else none)
      (by decide) (by decide) (by decide)).2.2 [true, false],
   (record_separator_round_trip
      (fun b => if b then [Char.ofNat 116] else [Char.ofNat 102])
      (fun l => if l = [Char.ofNat 116] then some true
        else if l = [Char.ofNat 102] then some false else none)
      (by decide) (by decide) (by decide)).2.1 true⟩

/-- Helper: inversion of a successful PanicOr bind. -/
theorem panicOr_bind_ok {α β : Type} {x : PanicOr α} {f : α → PanicOr β}
    {b : β} (h : PanicOr.bind x f = .ok b) :
    ∃ a, x = .ok a ∧ f a = .ok b := by
  cases x with
  | panic m => exact absurd h (by simp [PanicOr.bind])
  | ok a => exact ⟨a, rfl, h⟩

/-- Helper: a key never survives filtering itself out. -/
theorem lookup_filter_self {α : Type} (l : List (String × α)) (key : String) :
    (l.filter (fun p => p.1 ≠ key)).lookup key = none := by
  induction l with
  | nil => rfl
  | cons x xs ih =>
    rw [List.filter_cons]
    by_cases hx : x.1 = key
    · rw [if_neg (by simpa using hx)]
      exact ih
    · rw [if_pos (by simpa using hx)]
      obtain ⟨k, v⟩ := x
      have hk : (key == k) = false := by
        simp only at hx
        simpa using fun e => hx e.symm
      simp only [List.lookup, hk]
      exact ih

/-- Helper: after UpdatableActionStorage::remove the key is gone. -/
theorem lookup_remove_self {R : Type} (s : Session R) (key : String) :
    ((Storage.remove s key).1).data.lookup key = none := by
  unfold Storage.remove
  cases h : s.data.lookup key with
  | none =>
    simp only [h]
  | some a =>
    simp only [h]
    exact lookup_filter_self _ _

/-- Helper: update on an absent key only logs. -/
theorem updateWith_not_found {R : Type} (s : Session R) (key : String)
    (views : ParsedViews R) (t : MessageType)
    (h : s.data.lookup key = none) :
    Storage.updateWith s key views t = .ok (s, [Effect.keyNotFound key]) := by
  unfold Storage.updateWith
  rw [h]

/-- Helper: removal of an absent key is a no-op. -/
theorem remove_not_found {R : Type} (s : Session R) (key : String)
    (h : s.data.lookup key = none) :
    Storage.remove s key = (s, []) := by
  unfold Storage.remove
  rw [h]

/-- C5: a routed Completion updates the matching action first and then
removes its registry entry, so whatever the first Completion for a key
did, the key is absent afterwards, and a second Completion frame carrying
the same invocation id finds no entry: it produces exactly the
key-not-found diagnostic and returns the session — registry, future heap
and all — unchanged, so the already-resolved future is untouched and the
completer never receives a second value. -/
theorem at_most_once_completion {R : Type} (s s1 : Session R) (key : String)
    (v1 v2 : ParsedViews R) (p1 p2 : PossibleInvocation) (eff1 : List Effect)
    (h1 : v1.asPossible = some p1) (hk1 : p1.invocation_id = some key)
    (hp : Storage.process_message s v1 MessageType.Completion =
      PanicOr.ok (s1, eff1))
    (h2 : v2.asPossible = some p2) (hk2 : p2.invocation_id = some key) :
    s1.data.lookup key = none ∧
    Storage.process_message s1 v2 MessageType.Completion =
      PanicOr.ok (s1, [Effect.keyNotFound key]) := by
  have hnone : s1.data.lookup key = none := by
    simp only [Storage.process_message, h1, hk1] at hp
    obtain ⟨r, hr, hres⟩ := panicOr_bind_ok hp
    simp only [PanicOr.ok.injEq, Prod.mk.injEq] at hres
    rw [← hres.1]
    exact lookup_remove_self r.1 key
  refine ⟨hnone, ?_⟩
  simp only [Storage.process_message, h2, hk2,
    updateWith_not_found s1 key v2 MessageType.Completion hnone,
    PanicOr.bind, remove_not_found s1 key hnone, List.append_nil]

/-- Witness for C5: a first Completion delivering 7 to the pending
invocation t_1 removes the entry; a second Completion for t_1 is dropped
with a diagnostic and changes nothing. -/
theorem at_most_once_completion_witness :
    ({ data := [], futures := [("t_1", FutureState.Complete (some 7))],
       streams := [], index := 1 } : Session Nat).data.lookup "t_1" = none ∧
    Storage.process_message
      ({ data := [], futures := [("t_1", FutureState.Complete (some 7))],
         streams := [], index := 1 } : Session Nat)
      ({ asInvocation := none,
         asPossible := some { type := .Completion, headers := none,
                              invocation_id := some "t_1", target := none },
         asCompletion := some { type := .Completion, headers := none,
                                invocation_id := "t_1", result := none,
                                error := some "late" },
         asStreamItem := none } : ParsedViews Nat)
      MessageType.Completion =
      PanicOr.ok
        (({ data := [], futures := [("t_1", FutureState.Complete (some 7))],
            streams := [], index := 1 } : Session Nat),
         [Effect.keyNotFound "t_1"]) :=
  at_most_once_completion
    ({ data := [("t_1", .invocationA "t_1" true)],
       futures := [("t_1", .Incomplete)], streams := [], index := 1 })
    ({ data := [], futures := [("t_1", FutureState.Complete (some 7))],
       streams := [], index := 1 })
    "t_1"
    ({ asInvocation := none,
       asPossible := some { type := .Completion, headers := none,
                            invocation_id := some "t_1", target := none },
       asCompletion := some { type := .Completion, headers := none,
                              invocation_id := "t_1", result := some 7,
                              error := none },
       asStreamItem := none })
    ({ asInvocation := none,
       asPossible := some { type := .Completion, headers := none,
                            invocation_id := some "t_1", target := none },
       asCompletion := some { type := .Completion, headers := none,
                              invocation_id := "t_1", result := none,
                              error := some "late" },
       asStreamItem := none })
    ({ type := .Completion, headers := none, invocation_id := some "t_1",
       target := none })
    ({ type := .Completion, headers := none, invocation_id := some "t_1",
       target := none })
    [Effect.delivered "t_1" []]
    rfl rfl (by decide) rfl rfl

end SignalR
